import Mathlib

/-!
Shallow embedding of the gobuster content-discovery engine
(`libgobuster/libgobuster.go`) and its directory-mode plugin (`gobusterdir`),
together with proofs about the embedded operations.

Machine integers are modelled as `Int`/`Nat` (no overflow-relevant arithmetic
occurs), Go pointers that may be nil as `Option`, Go `(T, error)` returns as
`Except`/products, and the HTTP transport and filesystem as explicit
function-valued collaborators.  The concurrency bookkeeping of
`Gobuster.Start` (channel closes, started workers, words fed to the word
channel) is modelled as counters in an explicit state record, with Go `defer`
semantics applied once on every return path.
-/

/-- Verdict tag of one probe (`libgobuster.StatusFound` / `StatusMissed`). -/
inductive Status where
  | found
  | missed
deriving DecidableEq, Repr

/-- Errors produced by the engine and the directory plugin.  `wildcard` models
`gobusterdir.ErrWildcard` (carrying url and status code); every other Go
`error` / `fmt.Errorf` value is modelled by its message string. -/
inductive GoErr where
  | str (msg : String)
  | wildcard (url : String) (statusCode : Int)
deriving DecidableEq, Repr

/-- One discovered / missed entity (`libgobuster.Result`). -/
structure Result where
  entity : String
  statusCode : Int
  size : Option Int
  status : Status
deriving DecidableEq, Repr

/-- Global run options (`libgobuster.Options`), restricted to the fields the
embedded code reads or writes. -/
structure Options where
  threads : Nat
  delay : Nat
  wordlist : String
  quiet : Bool
  noProgress : Bool
  verbose : Bool
deriving DecidableEq, Repr

/-- Kind of a statted path, as distinguished by `fi.Mode().IsRegular()`. -/
inductive FileKind where
  | regular
  | dir
deriving DecidableEq, Repr

/-- Filesystem collaborator of `Gobuster.getWordlist`: standard input,
`os.Stat`, `os.Open` plus reading (a file is its list of lines), and
`ioutil.ReadDir` (entry names, in the order the OS returns them).  A `none`
result models the corresponding call returning an error. -/
structure FS where
  stdin : List String
  stat : String → Option FileKind
  readFile : String → Option (List String)
  readDir : String → Option (List String)

/-- Engine state (`libgobuster.Gobuster`) plus explicit bookkeeping of the
events the verification is about: how often each output channel has been
closed, how many worker goroutines were started, whether the word channel was
closed, and how many words the producer loop fed into it. -/
structure Gobuster where
  opts : Options
  requestsExpected : Nat
  requestsIssued : Nat
  resultChanCloses : Nat
  errorChanCloses : Nat
  workersStarted : Nat
  wordChanClosed : Bool
  wordsFed : Nat
deriving DecidableEq, Repr

/-- `NewGobuster`: fresh engine state for one run. -/
def Gobuster.init (o : Options) : Gobuster :=
  { opts := o, requestsExpected := 0, requestsIssued := 0,
    resultChanCloses := 0, errorChanCloses := 0,
    workersStarted := 0, wordChanClosed := false, wordsFed := 0 }

/-- Concatenation of the contents of every file of a word-list directory, in
directory order (the loop over `files` in `getWordlist`, libgobuster.go:172-185).
`none` models a failing `os.Open` on one of the entries. -/
def readAllFiles (fs : FS) (dir : String) (entries : List String) : Option (List String) :=
  match entries with
  | [] => some []
  | f :: rest =>
    match fs.readFile (dir ++ "/" ++ f) with
    | none => none
    | some lines =>
      match readAllFiles fs dir rest with
      | none => none
      | some more => some (lines ++ more)

/-- `Gobuster.getWordlist` (libgobuster.go:127-232).  Returns the word stream
(the scanner's lines) or an error, together with the updated engine state.
The line counter is modelled from the spec (its source lives outside the
embedded files): expected count = number of newline-delimited lines, computed
by a full pre-scan after which the handle is rewound.  In the directory
branch the temporary file `compiledwordlist.txt` is written, the run's
word-list option is redirected to it (libgobuster.go:211), and re-opening it
yields exactly the written lines. -/
def Gobuster.getWordlist (g : Gobuster) (fs : FS) : Except GoErr (List String) × Gobuster :=
  if g.opts.wordlist = "-" then
    (.ok fs.stdin, g)
  else
    match fs.stat g.opts.wordlist with
    | none => (.error (.str "Failed to stat wordlist"), g)
    | some .regular =>
      match fs.readFile g.opts.wordlist with
      | none => (.error (.str "failed to open wordlist"), g)
      | some lines =>
        (.ok lines, { g with requestsExpected := lines.length, requestsIssued := 0 })
    | some .dir =>
      match fs.readDir g.opts.wordlist with
      | none => (.error (.str "failed to read wordlist directory"), g)
      | some files =>
        match readAllFiles fs g.opts.wordlist files with
        | none => (.error (.str "failed to open wordlist"), g)
        | some allfilecontents =>
          let g := { g with opts := { g.opts with wordlist := "compiledwordlist.txt" } }
          (.ok allfilecontents,
            { g with requestsExpected := allfilecontents.length, requestsIssued := 0 })

/-- One execution of a deferred `close(g.resultChan)`. -/
def closeResultChan (g : Gobuster) : Gobuster :=
  { g with resultChanCloses := g.resultChanCloses + 1 }

/-- One execution of a deferred `close(g.errorChan)`. -/
def closeErrorChan (g : Gobuster) : Gobuster :=
  { g with errorChanCloses := g.errorChanCloses + 1 }

/-- The two `defer close(...)` statements of `Start` (libgobuster.go:237-238),
run in LIFO order on every return path. -/
def runDeferredCloses (g : Gobuster) : Gobuster :=
  closeResultChan (closeErrorChan g)

/-- Body of `Gobuster.Start` (libgobuster.go:240-270), before the deferred
closes are applied.  `pr` is the outcome of `g.plugin.PreRun()`; `cancelAt`
models the run context: `some n` means `ctx.Done()` wins the producer's
select before the word of index `n` is pushed, `none` means the context is
never cancelled.  Worker goroutines are launched (counted) after a successful
prepare hook and before the word list is opened, exactly as in the source. -/
def Gobuster.startBody (g : Gobuster) (pr : Except GoErr Unit) (fs : FS)
    (cancelAt : Option Nat) : Option GoErr × Gobuster :=
  match pr with
  | .error e => (some e, g)
  | .ok _ =>
    let g := { g with workersStarted := g.workersStarted + g.opts.threads }
    match g.getWordlist fs with
    | (.error e, g2) => (some e, g2)
    | (.ok words, g2) =>
      let fed := match cancelAt with
        | none => words.length
        | some n => min n words.length
      (none, { g2 with wordsFed := fed, wordChanClosed := true })

/-- `Gobuster.Start` (libgobuster.go:236-271): the body with the deferred
channel closes applied on whichever return path was taken. -/
def Gobuster.start (g : Gobuster) (pr : Except GoErr Unit) (fs : FS)
    (cancelAt : Option Nat) : Option GoErr × Gobuster :=
  let r := g.startBody pr fs cancelAt
  (r.1, runDeferredCloses r.2)

/-- The white-space predicate of Go `strings.TrimSpace`, restricted to the
ASCII space characters that occur in word lists. -/
def goIsSpace (c : Char) : Bool :=
  c == ' ' || c == '\t' || c == '\n' || c == '\r'

/-- Go `strings.HasSuffix`, over the character list. -/
def goHasSuffix (s suffix : String) : Bool :=
  List.isSuffixOf suffix.data s.data

/-- Go `strings.HasPrefix`, over the character list. -/
def goHasPrefix (s pre : String) : Bool :=
  List.isPrefixOf pre.data s.data

/-- Go `strings.TrimSpace`: drop leading and trailing white space. -/
def goTrimSpace (s : String) : String :=
  String.mk (((s.data.dropWhile goIsSpace).reverse.dropWhile goIsSpace).reverse)

/-- Outcome of one worker-loop iteration for one word received from the word
channel (`Gobuster.worker`, libgobuster.go:99-117): how often the
issued-requests counter was incremented, how often the plugin was invoked,
and the values sent on the result / error channels. -/
structure WorkerStep where
  increments : Nat
  pluginCalls : Nat
  results : List Result
  errors : List GoErr
deriving DecidableEq, Repr

/-- Per-word body of `Gobuster.worker`: `g.incrementRequests()` runs first
(libgobuster.go:99, before any filtering, so `increments := 1` in every
branch), then the word is trimmed; comment lines (leading `#`) and empty
lines are skipped; otherwise `g.plugin.Run` is invoked once and its results
(or its error) are forwarded. -/
def workerStep (pluginRun : String → Except GoErr (List Result)) (word : String) : WorkerStep :=
  let wordCleaned := goTrimSpace word
  if goHasPrefix wordCleaned "#" ∨ wordCleaned.length = 0 then
    { increments := 1, pluginCalls := 0, results := [], errors := [] }
  else
    match pluginRun wordCleaned with
    | .error e => { increments := 1, pluginCalls := 1, results := [], errors := [e] }
    | .ok res => { increments := 1, pluginCalls := 1, results := res, errors := [] }

/-- Result of `HTTPClient.Get` (status code pointer, content-length pointer,
error), each pointer modelled as an `Option`. -/
structure HTTPGetResult where
  statusCode : Option Int
  length : Option Int
  err : Option GoErr

/-- Result of `HTTPClient.GetWithBody` (status code pointer, body pointer,
error). -/
structure HTTPBodyResult where
  statusCode : Option Int
  body : Option String
  err : Option GoErr

/-- The transport collaborator (`libgobuster.HTTPClient`), as the two probe
operations the directory plugin uses.  Host header and cookies are fixed per
run, so each probe is a function of the url alone. -/
structure HTTPClient where
  get : String → HTTPGetResult
  getWithBody : String → HTTPBodyResult

/-- Directory-mode options (`gobusterdir.OptionsDir`), restricted to the
fields the embedded code reads or writes.  `statusCodesParsed` is the
allow-list and `statusCodesBlacklistParsed` the deny-list (`IntSet`s, of
which only membership and emptiness are consulted).  `extensionsParsed`
is the extension `StringSet`'s map-iteration order: Go leaves that order
unspecified, so it is an input of the model, constrained only to enumerate
the set parsed from the configured `extensions` string. -/
structure OptionsDir where
  url : String
  statusCodesParsed : List Int
  statusCodesBlacklistParsed : List Int
  extensions : String
  extensionsParsed : List String
  useSlash : Bool
  wildcardForced : Bool
  scrapeWords : Nat
deriving DecidableEq, Repr

/-- The directory plugin (`gobusterdir.GobusterDir`). -/
structure GobusterDir where
  options : OptionsDir
  globalopts : Options
  http : HTTPClient

/-- The four-field probe outcome returned by `GobusterDir.get`
(part_000:37-45): status code, length, body, error. -/
structure GetResponse where
  statusCode : Option Int
  length : Option Int
  body : Option String
  err : Option GoErr

/-- `GobusterDir.get` (part_000:37-45): with `grabwords` the body-returning
transport call is used and no length is produced; otherwise the plain call is
used and no body is produced. -/
def GobusterDir.get (d : GobusterDir) (url : String) (grabwords : Bool) : GetResponse :=
  if grabwords then
    let r := d.http.getWithBody url
    { statusCode := r.statusCode, length := none, body := r.body, err := r.err }
  else
    let r := d.http.get url
    { statusCode := r.statusCode, length := r.length, body := none, err := r.err }

/-- The status-classification block that `GobusterDir.Run` inlines for the
directory candidate (part_000:136-148) and for each file candidate
(part_000:176-188): deny-list first, then allow-list, else the internal
configuration error.  The verdict defaults to `missed` and is upgraded to
`found` by the branch conditions, exactly as in the source. -/
def classifyStatus (blacklist whitelist : List Int) (code : Int) : Except GoErr Status :=
  if 0 < blacklist.length then
    (if blacklist.contains code then .ok .missed else .ok .found)
  else if 0 < whitelist.length then
    (if whitelist.contains code then .ok .found else .ok .missed)
  else
    .error (.str "StatusCodes and StatusCodesBlacklist are both not set which should not happen")

/-- Outcome of `GobusterDir.PreRun`.  `nilPanic` models the Go runtime fault
of dereferencing the baseline response's nil status-code pointer
(`*wildcardResp` at part_000:102-107 has no nil guard). -/
inductive PreRunOutcome where
  | ok
  | err (e : GoErr)
  | nilPanic
deriving DecidableEq, Repr

/-- The wildcard-guard block of `PreRun` (part_000:101-111).  The status-code
pointer is dereferenced (panicking on nil) inside whichever non-empty-list
branch is taken; the dereference happens before `WildcardForced` is
consulted, and with both lists empty no dereference occurs and the internal
configuration error is returned. -/
def preRunWildcardCheck (opts : OptionsDir) (url : String) (wildcardResp : Option Int) : PreRunOutcome :=
  if 0 < opts.statusCodesBlacklistParsed.length then
    match wildcardResp with
    | none => .nilPanic
    | some code =>
      if ¬ opts.statusCodesBlacklistParsed.contains code ∧ ¬ opts.wildcardForced then
        .err (.wildcard url code)
      else .ok
  else if 0 < opts.statusCodesParsed.length then
    match wildcardResp with
    | none => .nilPanic
    | some code =>
      if opts.statusCodesParsed.contains code ∧ ¬ opts.wildcardForced then
        .err (.wildcard url code)
      else .ok
  else
    .err (.str "StatusCodes and StatusCodesBlacklist are both not set which should not happen")

/-- The trailing-slash normalization at the top of `PreRun` (part_000:85-87);
it rewrites the plugin's url option in place. -/
def GobusterDir.normalizeUrl (d : GobusterDir) : GobusterDir :=
  if goHasSuffix d.options.url "/" then d
  else { d with options := { d.options with url := d.options.url ++ "/" } }

/-- `GobusterDir.PreRun` (part_000:83-119): normalize the url, probe the
target itself (liveness), probe `url ++ guid` for a random `guid` (the
baseline / wildcard probe), then run the wildcard guard.  The final
output-directory creation (`os.Stat` / `os.Mkdir` of `output`) is a
filesystem side effect with no influence on the returned value and is not
modelled.  Returns the outcome together with the plugin state whose url
option was normalized. -/
def GobusterDir.preRun (d : GobusterDir) (guid : String) : PreRunOutcome × GobusterDir :=
  let d := d.normalizeUrl
  let live := d.get d.options.url false
  match live.err with
  | some _ => (.err (.str ("unable to connect to " ++ d.options.url)), d)
  | none =>
    let url := d.options.url ++ guid
    let wildcardResp := d.get url false
    match wildcardResp.err with
    | some e => (.err e, d)
    | none => (preRunWildcardCheck d.options url wildcardResp.statusCode, d)

/-- Outcome of `GobusterDir.Run` for one word: the result list of the normal
return, the error of an error return (in which case Go returns a nil result
slice, so no results accompany it), or a nil-pointer panic (never produced:
`Run` guards each status-code pointer). -/
inductive RunOutcome where
  | ok (results : List Result)
  | err (e : GoErr)
  | nilPanic
deriving DecidableEq, Repr

/-- The optional trailing separator of the directory candidate
(part_000:123-126). -/
def GobusterDir.suffixStr (d : GobusterDir) : String :=
  if d.options.useSlash then "/" else ""

/-- Url of the directory candidate of a word (part_000:129). -/
def GobusterDir.dirUrl (d : GobusterDir) (word : String) : String :=
  d.options.url ++ word ++ d.suffixStr

/-- Url of the file candidate of a word and extension (part_000:162-163). -/
def GobusterDir.fileUrl (d : GobusterDir) (word ext : String) : String :=
  d.options.url ++ (word ++ "." ++ ext)

/-- Message of the internal error raised when scraping is requested but the
probe returned no body (part_000:168). -/
def nilBodyMsg : String :=
  "Response body was nil, even though we want to scrape words? Edge case?"

/-- Directory-candidate part of `GobusterDir.Run` (part_000:128-158): probe
the directory url without a body, propagate a transport error, skip the
classification block entirely when the status-code pointer is nil, otherwise
classify and conditionally emit the directory `Result`. -/
def GobusterDir.dirStep (d : GobusterDir) (word : String) : Except GoErr (List Result) :=
  let resp := d.get (d.dirUrl word) false
  match resp.err with
  | some e => .error e
  | none =>
    match resp.statusCode with
    | none => .ok []
    | some code =>
      match classifyStatus d.options.statusCodesBlacklistParsed d.options.statusCodesParsed code with
      | .error e => .error e
      | .ok st =>
        if st = .found ∨ d.globalopts.verbose then
          .ok [{ entity := word ++ d.suffixStr, statusCode := code, size := resp.length, status := st }]
        else .ok []

/-- File-candidate loop of `GobusterDir.Run` (part_000:160-204), iterating
the extensions in the set's iteration order and accumulating results in
`ret`; the second component is the trace of probed urls (appended to `t`).
As in the source: the nil-body check precedes the transport-error check; a
nil status-code pointer skips the classification block; the word-scrape side
effect (`ScrapeUniqueWords`, a best-effort file write) has no influence on
the returned value and is not modelled. -/
def GobusterDir.runFiles (d : GobusterDir) (word : String) (exts : List String)
    (ret : List Result) (t : List String) : RunOutcome × List String :=
  match exts with
  | [] => (.ok ret, t)
  | ext :: rest =>
    let file := word ++ "." ++ ext
    let url := d.options.url ++ file
    let resp := d.get url (0 < d.options.scrapeWords)
    let t := t ++ [url]
    if resp.body = none ∧ 0 < d.options.scrapeWords then
      (.err (.str nilBodyMsg), t)
    else
      match resp.err with
      | some e => (.err e, t)
      | none =>
        match resp.statusCode with
        | none => d.runFiles word rest ret t
        | some code =>
          match classifyStatus d.options.statusCodesBlacklistParsed d.options.statusCodesParsed code with
          | .error e => (.err e, t)
          | .ok st =>
            if st = .found ∨ d.globalopts.verbose then
              d.runFiles word rest
                (ret ++ [{ entity := file, statusCode := code, size := resp.length, status := st }]) t
            else d.runFiles word rest ret t

/-- `GobusterDir.Run` (part_000:122-206): the directory candidate first, then
the file candidates.  Besides the outcome it returns the trace of probed
urls, in probe order. -/
def GobusterDir.run (d : GobusterDir) (word : String) : RunOutcome × List String :=
  match d.dirStep word with
  | .error e => (.err e, [d.dirUrl word])
  | .ok ret => d.runFiles word d.options.extensionsParsed ret [d.dirUrl word]

/-- Precondition on the transport under which `PreRun` cannot hit its nil
dereference: a successful plain probe always carries a status code. -/
def statusNonNilOnSuccess (c : HTTPClient) : Prop :=
  ∀ url, (c.get url).err = none → (c.get url).statusCode.isSome = true

/-- Status classifier as the specification words it (spec section 4.4), for
the refinement statement: if a deny-list is configured (non-empty), the
verdict is Found exactly when the code is not in the deny-list; else if an
allow-list is configured, Found exactly when the code is in the allow-list;
else the internal configuration error. -/
def classifierSpec (deny allow : List Int) (code : Int) : Except GoErr Status :=
  if deny ≠ [] then
    (if code ∈ deny then .ok .missed else .ok .found)
  else if allow ≠ [] then
    (if code ∈ allow then .ok .found else .ok .missed)
  else
    .error (.str "StatusCodes and StatusCodesBlacklist are both not set which should not happen")

/-- Shared global options for the concrete plugin instances below. -/
def gOpts : Options :=
  { threads := 1, delay := 0, wordlist := "w",
    quiet := false, noProgress := false, verbose := false }

/-- Concrete run options: two worker threads, word list at path `wl`. -/
def oC4 : Options :=
  { threads := 2, delay := 0, wordlist := "wl",
    quiet := false, noProgress := false, verbose := false }

/-- Concrete filesystem on which every stat fails. -/
def fsC4 : FS :=
  { stdin := [], stat := fun _ => none, readFile := fun _ => none, readDir := fun _ => none }

/-- Concrete run options whose word-list path names a directory. -/
def oC5 : Options :=
  { threads := 1, delay := 0, wordlist := "lists",
    quiet := false, noProgress := false, verbose := false }

/-- Concrete filesystem holding the word-list directory `lists` with a single
file `a.txt` of one line. -/
def fsC5 : FS :=
  { stdin := [],
    stat := fun p => if p = "lists" then some .dir else none,
    readFile := fun p => if p = "lists/a.txt" then some ["admin"] else none,
    readDir := fun p => if p = "lists" then some ["a.txt"] else none }

/-- Transport that answers every probe with status 200 and no error. -/
def httpAll200 : HTTPClient :=
  { get := fun _ => { statusCode := some 200, length := some 3, err := none },
    getWithBody := fun _ => { statusCode := some 200, body := some "", err := none } }

/-- Concrete directory plugin: allow-list `{200}`, wildcard override unset,
against the all-200 transport. -/
def dW : GobusterDir where
  options :=
    { url := "http://w/", statusCodesParsed := [200],
      statusCodesBlacklistParsed := [], extensions := "", extensionsParsed := [],
      useSlash := false, wildcardForced := false, scrapeWords := 0 }
  globalopts := gOpts
  http := httpAll200

/-- Transport that answers every probe with status 404 and no error. -/
def httpAll404 : HTTPClient :=
  { get := fun _ => { statusCode := some 404, length := some 0, err := none },
    getWithBody := fun _ => { statusCode := some 404, body := some "", err := none } }

/-- Concrete directory plugin configured with the extension string
`php,html`, whose `StringSet` a Go map range may legally enumerate as
`html` before `php` (map iteration order is unspecified); this instance
fixes that enumeration. -/
def dC7 : GobusterDir where
  options :=
    { url := "http://t/", statusCodesParsed := [],
      statusCodesBlacklistParsed := [404], extensions := "php,html",
      extensionsParsed := ["html", "php"],
      useSlash := false, wildcardForced := false, scrapeWords := 0 }
  globalopts := gOpts
  http := httpAll404

/-- Transport whose plain probe succeeds with 404 but whose body-returning
probe fails with a transport error and a nil body. -/
def httpC8 : HTTPClient :=
  { get := fun _ => { statusCode := some 404, length := some 0, err := none },
    getWithBody := fun _ => { statusCode := none, body := none, err := some (.str "connection refused") } }

/-- Concrete directory plugin with scraping enabled (minimum length 1) and
one extension, against `httpC8`. -/
def dC8 : GobusterDir where
  options :=
    { url := "http://t/", statusCodesParsed := [],
      statusCodesBlacklistParsed := [404], extensions := "php",
      extensionsParsed := ["php"],
      useSlash := false, wildcardForced := false, scrapeWords := 1 }
  globalopts := gOpts
  http := httpC8

/-- Transport that succeeds (no error) while returning a nil status-code
pointer. -/
def httpC9 : HTTPClient :=
  { get := fun _ => { statusCode := none, length := none, err := none },
    getWithBody := fun _ => { statusCode := none, body := none, err := none } }

/-- Concrete directory plugin whose baseline probe succeeds without a status
code, driving `PreRun` into its unguarded dereference. -/
def dC9 : GobusterDir where
  options :=
    { url := "http://t/", statusCodesParsed := [],
      statusCodesBlacklistParsed := [404], extensions := "", extensionsParsed := [],
      useSlash := false, wildcardForced := false, scrapeWords := 0 }
  globalopts := gOpts
  http := httpC9

/-- Transport for which every probe is found (200) except `http://t/admin.bak`,
which fails with a timeout. -/
def httpC10 : HTTPClient :=
  { get := fun url =>
      if url = "http://t/admin.bak" then { statusCode := none, length := none, err := some (.str "timeout") }
      else { statusCode := some 200, length := some 5, err := none },
    getWithBody := fun _ => { statusCode := none, body := none, err := some (.str "timeout") } }

/-- Concrete directory plugin with two extensions against `httpC10`: the
directory candidate of `admin` and its `php` file candidate are both found,
and only the later `bak` file candidate errors. -/
def dC10 : GobusterDir where
  options :=
    { url := "http://t/", statusCodesParsed := [],
      statusCodesBlacklistParsed := [404], extensions := "php,bak",
      extensionsParsed := ["php", "bak"],
      useSlash := false, wildcardForced := false, scrapeWords := 0 }
  globalopts := gOpts
  http := httpC10

/-- State bookkeeping of `getWordlist`: the worker count and the channel
close counters are untouched on every branch, and the options are either
returned unchanged or — exactly when the configured path stats as a
directory — rewritten to point at the compiled temporary word list. -/
theorem getWordlist_state (g : Gobuster) (fs : FS) :
    (g.getWordlist fs).2.workersStarted = g.workersStarted ∧
    (g.getWordlist fs).2.resultChanCloses = g.resultChanCloses ∧
    (g.getWordlist fs).2.errorChanCloses = g.errorChanCloses ∧
    ((g.getWordlist fs).2.opts = g.opts ∨
      (fs.stat g.opts.wordlist = some .dir ∧
        (g.getWordlist fs).2.opts = { g.opts with wordlist := "compiledwordlist.txt" })) := by
  by_cases h1 : g.opts.wordlist = "-"
  · simp [Gobuster.getWordlist, h1]
  · cases h2 : fs.stat g.opts.wordlist with
    | none => simp [Gobuster.getWordlist, h1, h2]
    | some k =>
      cases k with
      | regular =>
        cases h3 : fs.readFile g.opts.wordlist with
        | none => simp [Gobuster.getWordlist, h1, h2, h3]
        | some lines => simp [Gobuster.getWordlist, h1, h2, h3]
      | dir =>
        cases h3 : fs.readDir g.opts.wordlist with
        | none => simp [Gobuster.getWordlist, h1, h2, h3]
        | some files =>
          cases h4 : readAllFiles fs g.opts.wordlist files with
          | none => simp [Gobuster.getWordlist, h1, h2, h3, h4]
          | some all => simp [Gobuster.getWordlist, h1, h2, h3, h4]

/-- The body of `Start` never touches the channel close counters; the two
closes happen only through the deferred statements. -/
theorem startBody_closes (g : Gobuster) (pr : Except GoErr Unit) (fs : FS) (c : Option Nat) :
    (g.startBody pr fs c).2.resultChanCloses = g.resultChanCloses ∧
    (g.startBody pr fs c).2.errorChanCloses = g.errorChanCloses := by
  cases pr with
  | error e => exact ⟨rfl, rfl⟩
  | ok u =>
    simp only [Gobuster.startBody]
    rcases hw : Gobuster.getWordlist { g with workersStarted := g.workersStarted + g.opts.threads } fs with ⟨res, g2⟩
    have hf := getWordlist_state { g with workersStarted := g.workersStarted + g.opts.threads } fs
    rw [hw] at hf
    cases res with
    | error e => exact ⟨hf.2.1, hf.2.2.1⟩
    | ok words => exact ⟨hf.2.1, hf.2.2.1⟩

/-- Trace shape of the file-candidate loop: whatever urls it probes are
appended to the incoming trace, and they form a prefix (`p`, with remainder
`q`) of the file-candidate urls in iteration order. -/
theorem runFiles_trace (d : GobusterDir) (w : String) :
    ∀ (exts : List String) (ret : List Result) (t0 : List String),
      ∃ p q, (d.runFiles w exts ret t0).2 = t0 ++ p ∧ p ++ q = exts.map (d.fileUrl w) := by
  intro exts
  induction exts with
  | nil =>
    intro ret t0
    exact ⟨[], [], by simp [GobusterDir.runFiles], by simp⟩
  | cons ext rest ih =>
    intro ret t0
    have stop : ∃ p q,
        (t0 ++ [d.options.url ++ (w ++ "." ++ ext)] : List String) = t0 ++ p ∧
          p ++ q = List.map (d.fileUrl w) (ext :: rest) :=
      ⟨[d.options.url ++ (w ++ "." ++ ext)], List.map (d.fileUrl w) rest,
        rfl, by simp [GobusterDir.fileUrl]⟩
    have step : ∀ (R : List Result), ∃ p q,
        (d.runFiles w rest R (t0 ++ [d.options.url ++ (w ++ "." ++ ext)])).2 = t0 ++ p ∧
          p ++ q = List.map (d.fileUrl w) (ext :: rest) := by
      intro R
      rcases ih R (t0 ++ [d.options.url ++ (w ++ "." ++ ext)]) with ⟨p, q, hp, hq⟩
      exact ⟨(d.options.url ++ (w ++ "." ++ ext)) :: p, q,
        by rw [hp]; simp, by simp [GobusterDir.fileUrl, hq]⟩
    simp only [GobusterDir.runFiles]
    repeat' first
      | exact stop
      | exact step _
      | split

/-- Result accumulation of the file-candidate loop: a normal return extends
the incoming accumulator on the right. -/
theorem runFiles_mono (d : GobusterDir) (w : String) :
    ∀ (exts : List String) (ret : List Result) (t0 : List String) (res : List Result),
      (d.runFiles w exts ret t0).1 = .ok res → ∃ s, ret ++ s = res := by
  intro exts
  induction exts with
  | nil =>
    intro ret t0 res h
    simp [GobusterDir.runFiles] at h
    exact ⟨[], by simp [h]⟩
  | cons ext rest ih =>
    intro ret t0 res
    have stepNil : ∀ t1, (d.runFiles w rest ret t1).1 = .ok res → ∃ s, ret ++ s = res := by
      intro t1 h
      exact ih ret t1 res h
    have stepSnoc : ∀ (r : Result) t1,
        (d.runFiles w rest (ret ++ [r]) t1).1 = .ok res → ∃ s, ret ++ s = res := by
      intro r t1 h
      rcases ih (ret ++ [r]) t1 res h with ⟨s, hs⟩
      exact ⟨r :: s, by rw [← hs]; simp⟩
    simp only [GobusterDir.runFiles]
    repeat' first
      | exact stepNil _
      | exact stepSnoc _ _
      | (intro h; simp at h)
      | split

/-- The per-word probe never reaches a nil dereference in its file loop:
every status-code pointer is matched before use. -/
theorem runFiles_no_panic (d : GobusterDir) (w : String) :
    ∀ (exts : List String) (ret : List Result) (t0 : List String),
      (d.runFiles w exts ret t0).1 ≠ .nilPanic := by
  intro exts
  induction exts with
  | nil => intro ret t0; simp [GobusterDir.runFiles]
  | cons ext rest ih =>
    intro ret t0
    simp only [GobusterDir.runFiles]
    repeat' first
      | exact ih _ _
      | simp
      | split

/-- C1: the status classification inlined by `GobusterDir.Run` is exactly the
pure decision the specification describes: with a non-empty deny-list the
verdict is Found precisely when the code is not in the deny-list (the
deny-list taking precedence); otherwise, with a non-empty allow-list, Found
precisely when the code is in the allow-list; with both lists empty the
probe fails with the internal configuration error. -/
theorem claim_C1_classifier_refines_spec (bl wl : List Int) (code : Int) :
    classifyStatus bl wl code = classifierSpec bl wl code := by
  by_cases hb : bl = [] <;> by_cases hw : wl = [] <;>
    by_cases hc : code ∈ bl <;> by_cases hd : code ∈ wl <;>
      simp [classifyStatus, classifierSpec, hb, hw, hc, hd, List.length_pos, List.elem_iff]

/-- Url normalization rewrites only the url option; the status-code lists and
the wildcard override are untouched. -/
theorem normalizeUrl_fields (d : GobusterDir) :
    d.normalizeUrl.options.statusCodesBlacklistParsed = d.options.statusCodesBlacklistParsed ∧
    d.normalizeUrl.options.statusCodesParsed = d.options.statusCodesParsed ∧
    d.normalizeUrl.options.wildcardForced = d.options.wildcardForced := by
  unfold GobusterDir.normalizeUrl
  split <;> simp

/-- C2: when the liveness probe and the baseline probe both succeed (and the
baseline carries a status code), `PreRun` fails with the wildcard error
carrying the probed url and that status code exactly when the configured
allow/deny-list policy classifies the baseline status as Found and the
wildcard override is unset. -/
theorem claim_C2_prerun_wildcard_iff (d : GobusterDir) (guid : String) (code : Int)
    (hlive : (d.normalizeUrl.get d.normalizeUrl.options.url false).err = none)
    (herr : (d.normalizeUrl.get (d.normalizeUrl.options.url ++ guid) false).err = none)
    (hcode : (d.normalizeUrl.get (d.normalizeUrl.options.url ++ guid) false).statusCode = some code) :
    (d.preRun guid).1 = .err (.wildcard (d.normalizeUrl.options.url ++ guid) code) ↔
      (classifyStatus d.options.statusCodesBlacklistParsed d.options.statusCodesParsed code
          = .ok .found
        ∧ d.options.wildcardForced = false) := by
  obtain ⟨hbl, hwl, hforce⟩ := normalizeUrl_fields d
  simp only [GobusterDir.preRun, hlive, herr, hcode]
  simp only [preRunWildcardCheck, hbl, hwl, hforce]
  by_cases hB : d.options.statusCodesBlacklistParsed = []
  · by_cases hW : d.options.statusCodesParsed = []
    · simp [classifyStatus, hB, hW]
    · by_cases hcont : code ∈ d.options.statusCodesParsed <;>
        cases hf : d.options.wildcardForced <;>
          simp [classifyStatus, hB, hW, hcont, hf, List.length_pos, List.elem_iff]
  · by_cases hcont : code ∈ d.options.statusCodesBlacklistParsed <;>
      cases hf : d.options.wildcardForced <;>
        simp [classifyStatus, hB, hcont, hf, List.length_pos, List.elem_iff]

/-- Witness for C2 at a concrete plugin: allow-list `{200}`, override unset,
baseline answering 200. -/
theorem claim_C2_witness :
    (dW.normalizeUrl.get dW.normalizeUrl.options.url false).err = none ∧
    (dW.normalizeUrl.get (dW.normalizeUrl.options.url ++ "guid") false).err = none ∧
    (dW.normalizeUrl.get (dW.normalizeUrl.options.url ++ "guid") false).statusCode = some 200 ∧
    ((dW.preRun "guid").1 = .err (.wildcard (dW.normalizeUrl.options.url ++ "guid") 200) ↔
      (classifyStatus dW.options.statusCodesBlacklistParsed dW.options.statusCodesParsed 200
          = .ok .found
        ∧ dW.options.wildcardForced = false)) :=
  ⟨rfl, rfl, rfl, claim_C2_prerun_wildcard_iff dW "guid" 200 rfl rfl rfl⟩

/-- C3: on every exit path of `Start` — normal completion, cancellation at
any point, prepare failure, or word-list setup failure — each of the two
output channels is closed exactly once. -/
theorem claim_C3_start_closes_channels (o : Options) (pr : Except GoErr Unit) (fs : FS)
    (c : Option Nat) :
    ((Gobuster.init o).start pr fs c).2.resultChanCloses = 1 ∧
    ((Gobuster.init o).start pr fs c).2.errorChanCloses = 1 := by
  have h := startBody_closes (Gobuster.init o) pr fs c
  constructor
  · simp [Gobuster.start, runDeferredCloses, closeResultChan, closeErrorChan]
    exact h.1
  · simp [Gobuster.start, runDeferredCloses, closeResultChan, closeErrorChan]
    exact h.2

/-- Counterexample to C4 as stated: on a run whose word list cannot be
statted, `Start` does return the stat error, but the two worker routines
have already been started at that point (the claim asserts none are). -/
theorem claim_C4_counterexample :
    ((Gobuster.init oC4).start (.ok ()) fsC4 none).1 = some (.str "Failed to stat wordlist") ∧
    ((Gobuster.init oC4).start (.ok ()) fsC4 none).2.workersStarted = 2 :=
  ⟨rfl, rfl⟩

/-- C4 (amended): a prepare-hook failure makes `Start` return that error with
no worker started; a word-list failure (stat/open/read) makes `Start` return
that error, but only after all `threads` worker routines were started. -/
theorem claim_C4_setup_failures (o : Options) (pr : Except GoErr Unit) (fs : FS)
    (c : Option Nat) :
    match pr with
    | .error e =>
      ((Gobuster.init o).start pr fs c).1 = some e ∧
        ((Gobuster.init o).start pr fs c).2.workersStarted = 0
    | .ok _ =>
      match (Gobuster.getWordlist { Gobuster.init o with workersStarted := o.threads } fs).1 with
      | .error e =>
        ((Gobuster.init o).start pr fs c).1 = some e ∧
          ((Gobuster.init o).start pr fs c).2.workersStarted = o.threads
      | .ok _ => ((Gobuster.init o).start pr fs c).1 = none := by
  cases pr with
  | error e => exact ⟨rfl, rfl⟩
  | ok u =>
    simp only [Gobuster.start, Gobuster.startBody]
    have hst : { Gobuster.init o with
        workersStarted := (Gobuster.init o).workersStarted + (Gobuster.init o).opts.threads } =
        { Gobuster.init o with workersStarted := o.threads } := by
      simp [Gobuster.init]
    rw [hst]
    rcases hw : Gobuster.getWordlist { Gobuster.init o with workersStarted := o.threads } fs
      with ⟨res, g2⟩
    have hs := getWordlist_state { Gobuster.init o with workersStarted := o.threads } fs
    rw [hw] at hs
    cases res with
    | error e =>
      refine ⟨rfl, ?_⟩
      show (runDeferredCloses g2).workersStarted = o.threads
      exact hs.1
    | ok words => rfl

/-- Counterexample to C5 as stated: on a run whose configured word-list path
names a directory, `Start` rewrites the word-list option to the compiled
temporary list, so the validated Options are not left unchanged. -/
theorem claim_C5_counterexample :
    oC5.wordlist = "lists" ∧
    ((Gobuster.init oC5).start (.ok ()) fsC5 none).2.opts.wordlist = "compiledwordlist.txt" :=
  ⟨rfl, rfl⟩

/-- C5 (amended): `Start` leaves every field of the run Options unchanged on
every exit path, except that when the configured word-list path stats as a
directory the word-list field is rewritten to `compiledwordlist.txt` (all
other fields still unchanged). -/
theorem claim_C5_options_frame (o : Options) (pr : Except GoErr Unit) (fs : FS)
    (c : Option Nat) :
    ((Gobuster.init o).start pr fs c).2.opts = o ∨
      (fs.stat o.wordlist = some .dir ∧
        ((Gobuster.init o).start pr fs c).2.opts = { o with wordlist := "compiledwordlist.txt" }) := by
  cases pr with
  | error e => left; rfl
  | ok u =>
    simp only [Gobuster.start, Gobuster.startBody]
    have hst : { Gobuster.init o with
        workersStarted := (Gobuster.init o).workersStarted + (Gobuster.init o).opts.threads } =
        { Gobuster.init o with workersStarted := o.threads } := by
      simp [Gobuster.init]
    rw [hst]
    rcases hw : Gobuster.getWordlist { Gobuster.init o with workersStarted := o.threads } fs
      with ⟨res, g2⟩
    have hs := getWordlist_state { Gobuster.init o with workersStarted := o.threads } fs
    rw [hw] at hs
    cases res with
    | error e =>
      rcases hs.2.2.2 with h | ⟨hstat, h⟩
      · left; exact h
      · right; exact ⟨hstat, h⟩
    | ok words =>
      rcases hs.2.2.2 with h | ⟨hstat, h⟩
      · left; exact h
      · right; exact ⟨hstat, h⟩

/-- C6: for every word a worker receives, the issued-requests counter is
incremented exactly once; a word that trims to empty or starts with `#` is
never handed to the plugin and contributes neither results nor errors; any
other word is handed to the plugin exactly once. -/
theorem claim_C6_worker_word_handling (p : String → Except GoErr (List Result)) (w : String) :
    (workerStep p w).increments = 1 ∧
    (¬ (goHasPrefix (goTrimSpace w) "#" = true ∨ (goTrimSpace w).length = 0) ∨
      ((workerStep p w).pluginCalls = 0 ∧ (workerStep p w).results = [] ∧
        (workerStep p w).errors = [])) ∧
    ((goHasPrefix (goTrimSpace w) "#" = true ∨ (goTrimSpace w).length = 0) ∨
      (workerStep p w).pluginCalls = 1) := by
  by_cases hc : goHasPrefix (goTrimSpace w) "#" = true ∨ (goTrimSpace w).length = 0
  · refine ⟨?_, ?_, ?_⟩ <;> simp [workerStep, hc]
  · cases hp : p (goTrimSpace w) with
    | error e => refine ⟨?_, ?_, ?_⟩ <;> simp [workerStep, hc, hp]
    | ok res => refine ⟨?_, ?_, ?_⟩ <;> simp [workerStep, hc, hp]

/-- Counterexample to C7 as stated: with the extension string `php,html`, a
legal Go map enumeration of the parsed set probes `html` before `php`, so the
file candidates are not evaluated in the configured extension-list order. -/
theorem claim_C7_counterexample :
    (dC7.run "admin").2 = ["http://t/admin", "http://t/admin.html", "http://t/admin.php"] ∧
    (dC7.run "admin").2 ≠ ["http://t/admin", "http://t/admin.php", "http://t/admin.html"] := by
  exact ⟨by decide, by decide⟩

/-- C7 (amended): the directory candidate of a word is always probed first,
and any directory Result precedes every file Result; the file candidates are
then probed in the extension set's map-iteration order, which Go leaves
unspecified and which need not match the configured extension-list order. -/
theorem claim_C7_probe_order (d : GobusterDir) (w : String) :
    ((d.run w).2).head? = some (d.dirUrl w) ∧
    (∃ q, ((d.run w).2).tail ++ q = d.options.extensionsParsed.map (d.fileUrl w)) ∧
    (match (d.run w).1, d.dirStep w with
     | .ok res, .ok dirRet => ∃ s, dirRet ++ s = res
     | _, _ => True) := by
  cases hd : d.dirStep w with
  | error e =>
    refine ⟨?_, ⟨d.options.extensionsParsed.map (d.fileUrl w), ?_⟩, ?_⟩ <;>
      simp [GobusterDir.run, hd]
  | ok ret =>
    simp only [GobusterDir.run, hd]
    obtain ⟨p, q, hp, hq⟩ := runFiles_trace d w d.options.extensionsParsed ret [d.dirUrl w]
    refine ⟨?_, ?_, ?_⟩
    · rw [hp]; rfl
    · rw [hp]; exact ⟨q, by simpa using hq⟩
    · cases hr : (d.runFiles w d.options.extensionsParsed ret [d.dirUrl w]).1 with
      | ok res =>
        exact runFiles_mono d w d.options.extensionsParsed ret [d.dirUrl w] res hr
      | err e => trivial
      | nilPanic => trivial

/-- Counterexample to C8 as stated: with scraping enabled and the file
probe's transport call failing with a nil body, `Run` reports the internal
nil-body error, not the transport error — so the internal error is raised on
a failed transport call, and the body field is inspected despite the error. -/
theorem claim_C8_counterexample :
    (dC8.http.getWithBody "http://t/admin.php").err = some (.str "connection refused") ∧
    (dC8.run "admin").1 = .err (.str nilBodyMsg) ∧
    (dC8.run "admin").1 ≠ .err (.str "connection refused") := by
  exact ⟨rfl, by decide, by decide⟩

/-- C8 (amended): in a file-candidate probe the nil-body check precedes the
transport-error check: if scraping is enabled and the returned body is nil,
`Run` fails with the internal nil-body error even when the transport call
itself failed; otherwise a transport error is returned as is, before the
status code or length are inspected. -/
theorem claim_C8_nilbody_precedes_error (d : GobusterDir) (w ext : String) (rest : List String)
    (ret : List Result) (t : List String) :
    (if (d.get (d.options.url ++ (w ++ "." ++ ext)) (0 < d.options.scrapeWords)).body = none
        ∧ 0 < d.options.scrapeWords then
      (d.runFiles w (ext :: rest) ret t).1 = .err (.str nilBodyMsg)
    else
      match (d.get (d.options.url ++ (w ++ "." ++ ext)) (0 < d.options.scrapeWords)).err with
      | some e => (d.runFiles w (ext :: rest) ret t).1 = .err e
      | none => True) := by
  by_cases hb : (d.get (d.options.url ++ (w ++ "." ++ ext)) (0 < d.options.scrapeWords)).body = none
      ∧ 0 < d.options.scrapeWords
  · rw [if_pos hb]
    simp only [GobusterDir.runFiles]
    rw [if_pos hb]
  · rw [if_neg hb]
    cases he : (d.get (d.options.url ++ (w ++ "." ++ ext)) (0 < d.options.scrapeWords)).err with
    | none => trivial
    | some e =>
      show (d.runFiles w (ext :: rest) ret t).1 = .err e
      simp only [GobusterDir.runFiles]
      rw [if_neg hb, he]

/-- Url normalization leaves the transport collaborator untouched. -/
theorem normalizeUrl_http (d : GobusterDir) : d.normalizeUrl.http = d.http := by
  unfold GobusterDir.normalizeUrl
  split <;> rfl

/-- The wildcard guard cannot panic once the status-code pointer is known to
be non-nil. -/
theorem preRunWildcardCheck_some_ne_panic (opts : OptionsDir) (url : String) (code : Int) :
    preRunWildcardCheck opts url (some code) ≠ .nilPanic := by
  unfold preRunWildcardCheck
  repeat' split
  all_goals simp_all

/-- C9: `PreRun` dereferences the baseline status-code pointer without a nil
check, so it is panic-free only under the precondition that a successful
plain probe always carries a status code (first conjunct); without that
precondition a concrete succeeding transport with a nil status code drives
`PreRun` into the nil dereference (second conjunct); the per-word `Run`, by
contrast, guards every status-code pointer and never panics (third
conjunct). -/
theorem claim_C9_nil_deref :
    (∀ (d : GobusterDir) (guid : String), statusNonNilOnSuccess d.http →
      (d.preRun guid).1 ≠ .nilPanic) ∧
    (dC9.preRun "guid").1 = .nilPanic ∧
    (∀ (d : GobusterDir) (w : String), (d.run w).1 ≠ .nilPanic) := by
  refine ⟨?_, by decide, ?_⟩
  · intro d guid hpre
    simp only [GobusterDir.preRun]
    cases hl : (d.normalizeUrl.get d.normalizeUrl.options.url false).err with
    | some e => simp
    | none =>
      cases he : (d.normalizeUrl.get (d.normalizeUrl.options.url ++ guid) false).err with
      | some e => simp
      | none =>
        cases hs : (d.normalizeUrl.get (d.normalizeUrl.options.url ++ guid) false).statusCode with
        | some code => exact preRunWildcardCheck_some_ne_panic _ _ _
        | none =>
          exfalso
          simp only [GobusterDir.get, normalizeUrl_http, Bool.false_eq_true, if_false] at he hs
          have := hpre (d.normalizeUrl.options.url ++ guid) he
          simp [hs] at this
  · intro d w
    cases hd : d.dirStep w with
    | error e => simp [GobusterDir.run, hd]
    | ok ret =>
      simp only [GobusterDir.run, hd]
      exact runFiles_no_panic d w d.options.extensionsParsed ret [d.dirUrl w]

/-- The file-candidate loop cannot return normally when the probe of any
extension in the list fails (a transport error, or a nil body while scraping
is enabled): the loop visits the extensions in order and can only reach a
normal return by passing a successful probe of every one of them, so some
error return is taken instead. -/
theorem runFiles_err_of_failing_ext (d : GobusterDir) (w : String) :
    ∀ (exts : List String) (ret : List Result) (t : List String) (ext : String),
      ext ∈ exts →
      ((d.get (d.options.url ++ (w ++ "." ++ ext)) (0 < d.options.scrapeWords)).err ≠ none ∨
        ((d.get (d.options.url ++ (w ++ "." ++ ext)) (0 < d.options.scrapeWords)).body = none ∧
          0 < d.options.scrapeWords)) →
      ∃ e, (d.runFiles w exts ret t).1 = .err e := by
  intro exts
  induction exts with
  | nil =>
    intro ret t ext hm hfail
    exact absurd hm (List.not_mem_nil ext)
  | cons ext1 rest ih =>
    intro ret t ext hm hfail
    simp only [GobusterDir.runFiles]
    rcases List.mem_cons.mp hm with heq | hmem
    · subst heq
      split
      · exact ⟨_, rfl⟩
      · rename_i hb
        split
        · rename_i e heq2
          exact ⟨e, rfl⟩
        · rename_i heqe
          rcases hfail with hf | hf
          · exact absurd heqe hf
          · exact absurd hf hb
    · repeat' first
        | exact ⟨_, rfl⟩
        | exact ih _ _ ext hmem hfail
        | split

/-- C10: once the directory candidate of a word has produced a Result, a
failing probe — a transport error, or the nil-body internal error — on any
of the word's file-extension candidates makes `Run` return an error, never a
result list: as in the source's `return nil, err`, an error return carries
no results, so the already-built directory Result (and any file Results
accumulated before the failing probe) are discarded and no partial results
are returned. -/
theorem claim_C10_error_discards_results (d : GobusterDir) (w : String)
    (r : Result) (ext : String)
    (hdir : d.dirStep w = .ok [r])
    (hfound : r.status = .found)
    (hext : ext ∈ d.options.extensionsParsed)
    (hfail : (d.get (d.options.url ++ (w ++ "." ++ ext)) (0 < d.options.scrapeWords)).err ≠ none ∨
      ((d.get (d.options.url ++ (w ++ "." ++ ext)) (0 < d.options.scrapeWords)).body = none ∧
        0 < d.options.scrapeWords)) :
    (∃ e, (d.run w).1 = .err e) ∧ ∀ res, (d.run w).1 ≠ RunOutcome.ok res := by
  have h := runFiles_err_of_failing_ext d w d.options.extensionsParsed [r] [d.dirUrl w] ext
    hext hfail
  constructor
  · simp only [GobusterDir.run, hdir]
    exact h
  · intro res hres
    rcases h with ⟨e, he⟩
    simp only [GobusterDir.run, hdir] at hres
    rw [hres] at he
    simp at he

/-- Witness for C10 at a concrete plugin with extensions `php` then `bak`:
the directory candidate of `admin` is found (status 200), the `php` file
candidate is also found, the later `bak` file candidate times out, and `Run`
returns an error and no result list — the directory Result and the already
accumulated `admin.php` Result are discarded. -/
theorem claim_C10_witness :
    dC10.dirStep "admin" = .ok [⟨"admin", 200, some 5, .found⟩] ∧
    (⟨"admin", 200, some 5, .found⟩ : Result).status = .found ∧
    "bak" ∈ dC10.options.extensionsParsed ∧
    ((dC10.get (dC10.options.url ++ ("admin" ++ "." ++ "bak")) (0 < dC10.options.scrapeWords)).err ≠ none ∨
      ((dC10.get (dC10.options.url ++ ("admin" ++ "." ++ "bak")) (0 < dC10.options.scrapeWords)).body = none ∧
        0 < dC10.options.scrapeWords)) ∧
    ((∃ e, (dC10.run "admin").1 = .err e) ∧ ∀ res, (dC10.run "admin").1 ≠ RunOutcome.ok res) :=
  ⟨rfl, rfl, by decide, Or.inl (by decide),
    claim_C10_error_discards_results dC10 "admin" ⟨"admin", 200, some 5, .found⟩ "bak"
      rfl rfl (by decide) (Or.inl (by decide))⟩
